import Mathlib

/-!
Verification of the leaderboard module (quiz result tracking and leaderboard
display) against its specification.

The Lean definitions below are a shallow embedding of the Python source
`leaderboard_module.py`.  Python numbers are modelled exactly: `int` by `ℤ`,
`float` by `ℚ` (finite values), so `score` is a `PyNum` and times are `ℚ`.
JSON records are modelled by `Record`, whose fields are `Option`-valued
because a stored dictionary may lack any key (`dict.get` with a default).
The filesystem visible to the module (the `data` directory and the results
file) is modelled by `FS`.
-/

namespace Leaderboard

open List

/-- A Python numeric value: an `int` or a (finite) `float`. -/
inductive PyNum
  | int (n : ℤ)
  | float (q : ℚ)
deriving DecidableEq

/-- The numeric value of a Python number. -/
def PyNum.val : PyNum → ℚ
  | .int n => n
  | .float q => q

/-- The decimal digit character for `d` (defined for `d ≤ 9`). -/
def digitChar (d : ℕ) : Char :=
  match d with
  | 0 => '0'
  | 1 => '1'
  | 2 => '2'
  | 3 => '3'
  | 4 => '4'
  | 5 => '5'
  | 6 => '6'
  | 7 => '7'
  | 8 => '8'
  | _ => '9'

/-- Decimal rendering of a natural number (fuelled, structurally recursive);
models Python `str` on a non-negative `int`. -/
def natReprAux : ℕ → ℕ → String
  | 0, _ => ""
  | fuel + 1, n =>
    if n < 10 then String.singleton (digitChar n)
    else natReprAux fuel (n / 10) ++ String.singleton (digitChar (n % 10))

/-- Decimal rendering of a natural number; models Python `str`. -/
def natRepr (n : ℕ) : String := natReprAux (n + 1) n

/-- Models Python `str` on an `int` (minus sign for negative values). -/
def intRepr (n : ℤ) : String :=
  if n < 0 then "-" ++ natRepr n.natAbs else natRepr n.natAbs

/-- Truncation of a rational toward zero; models Python `int(x)` on a float. -/
def ratTrunc (q : ℚ) : ℤ := if 0 ≤ q then ⌊q⌋ else -⌊-q⌋

/-- Python float floor division `a // b` (result is an integer-valued float). -/
def pyFloorDiv (a b : ℚ) : ℚ := (⌊a / b⌋ : ℤ)

/-- Python float modulo `a % b` for `b > 0`: `a - b * (a // b)`. -/
def pyMod (a b : ℚ) : ℚ := a - b * pyFloorDiv a b

/-- Round half to even (the rounding used by Python float formatting). -/
def rhe (q : ℚ) : ℤ :=
  if Int.fract q < 1 / 2 then ⌊q⌋
  else if 1 / 2 < Int.fract q then ⌊q⌋ + 1
  else if ⌊q⌋ % 2 = 0 then ⌊q⌋ else ⌊q⌋ + 1

/-- Python `f"{q:.1f}"`: fixed-point formatting with one digit after the
decimal point, rounding half to even; the sign comes from the value itself
(so a negative value rounding to zero prints `-0.0`). -/
def pyFormat1f (q : ℚ) : String :=
  let n : ℤ := rhe (q * 10)
  (if q < 0 then "-" else "") ++ natRepr (n.natAbs / 10) ++ "." ++ natRepr (n.natAbs % 10)

/-- A quiz identifier as accepted by the module: `Union[int, str]`. -/
inductive QuizId
  | int (n : ℤ)
  | str (s : String)
deriving DecidableEq

/-- Python `str` on a `Union[int, str]` value. -/
def pyStr : QuizId → String
  | .int n => intRepr n
  | .str s => s

/-- Python truthiness of a `Union[int, str]` value (`0` and `""` are falsy). -/
def QuizId.truthy : QuizId → Bool
  | .int n => n != 0
  | .str s => s != ""

/-- Python list slicing `l[:n]` for an arbitrary integer `n`: a negative `n`
counts from the end (`l[:-k]` drops the last `k` elements). -/
def pySlice {α : Type} (l : List α) (n : ℤ) : List α :=
  if 0 ≤ n then l.take n.toNat else l.take (l.length - (-n).toNat)

/-- One stored quiz result (a JSON dictionary).  Every field is optional
because the module reads fields with `dict.get` and a record loaded from
storage may lack any of them. -/
structure Record where
  quiz_id : Option String := none
  user_id : Option String := none
  user_name : Option String := none
  score : Option PyNum := none
  correct_answers : Option ℤ := none
  total_questions : Option ℤ := none
  completion_time : Option ℚ := none
  timestamp : Option String := none
deriving DecidableEq

/-! ## Ranker (`get_leaderboard`, lines 89–114) -/

/-- The score used by the sort key: `x.get("score", 0)` as a number. -/
def scoreQ (r : Record) : ℚ :=
  match r.score with
  | some p => p.val
  | none => 0

/-- Order on the completion-time component of the sort key:
`x.get("completion_time", float('inf'))`, so a missing time is `+∞`. -/
def timeLE : Option ℚ → Option ℚ → Bool
  | _, none => true
  | none, some _ => false
  | some a, some b => a ≤ b

/-- The comparison underlying `sorted(results, key=lambda x: (-score, time))`:
lexicographic order on the pair (negated score, completion time). -/
def keyLE (a b : Record) : Bool :=
  decide (scoreQ b < scoreQ a) || (decide (scoreQ a = scoreQ b) && timeLE a.completion_time b.completion_time)

/-- The full sort key of a record, for speaking about ties: records tie
exactly when their scores agree and their completion-time fields agree
(a missing time equals a missing time, as `inf == inf` in Python). -/
def sortKey (r : Record) : ℚ × Option ℚ := (scoreQ r, r.completion_time)

/-- Lines 102–105: filter the results by quiz id if one is given
(`r.get("quiz_id") == str(quiz_id)`). -/
def filterByQuiz (results : List Record) : Option QuizId → List Record
  | none => results
  | some q => results.filter (fun r => decide (r.quiz_id = some (pyStr q)))

/-- `get_leaderboard` (lines 89–114), with the loaded result set passed
explicitly: filter by quiz, sort by (score descending, completion time
ascending) with Python's stable sort, then slice to the first `limit`. -/
def get_leaderboard (results : List Record) (quiz_id : Option QuizId := none)
    (limit : ℤ := 15) : List Record :=
  pySlice ((filterByQuiz results quiz_id).mergeSort keyLE) limit

/-! ## Store (`load_results`, `save_results`, `record_quiz_result`,
lines 16–87)

The filesystem state the module can observe or change is the `data`
directory and the results file.  The results file is in one of five states:
absent; present but unreadable (`open` raises an `OSError` such as
`PermissionError`); present but not decodable as JSON (`json.load` raises
`JSONDecodeError`); decodable to a JSON value that is not a list of records;
or decodable to a list of records. -/

/-- State of the backing results file. -/
inductive FileState
  | absent
  | unreadable
  | malformed
  | jsonOther
  | records (rs : List Record)
deriving DecidableEq

/-- The filesystem state visible to the module. -/
structure FS where
  dataDir : Bool
  file : FileState
deriving DecidableEq

/-- The in-memory value produced by a successful `load_results` call:
the decoded JSON, which is a list of records or some other JSON value
(the code performs no shape check on the decoded data). -/
inductive LoadedVal
  | list (rs : List Record)
  | other
deriving DecidableEq

/-- The outcome of `load_results`: a returned value, or an uncaught
exception propagating to the caller (only `JSONDecodeError` and
`FileNotFoundError` are caught). -/
inductive LoadResult
  | ok (v : LoadedVal)
  | oserror
deriving DecidableEq

/-- `load_results` (lines 16–27).  When the file is absent the code creates
the `data` directory (`os.makedirs(..., exist_ok=True)`) and returns `[]`;
undecodable contents are caught and yield `[]`; an `OSError` on `open` of an
existing file is not caught; otherwise the decoded JSON is returned as-is. -/
def load_results (fs : FS) : LoadResult × FS :=
  match fs.file with
  | .absent => (.ok (.list []), { fs with dataDir := true })
  | .unreadable => (.oserror, fs)
  | .malformed => (.ok (.list []), fs)
  | .jsonOther => (.ok .other, fs)
  | .records rs => (.ok (.list rs), fs)

/-- Outcome of an operation that writes: whether an exception propagated to
the caller, and the filesystem state afterwards. -/
structure WriteOutcome where
  raised : Bool
  fs : FS
deriving DecidableEq

/-- `save_results` (lines 29–35): create the `data` directory, then open the
results file in mode `'w'` — which truncates it immediately — and serialize
the whole list into it.  `fail = true` models a write that fails mid-way
(disk full, process killed, ...): the exception propagates (nothing catches
it) and the file is left holding a partial document, which is not decodable
JSON. -/
def save_results (results : List Record) (fs : FS) (fail : Bool) : WriteOutcome :=
  if fail then ⟨true, { fs with dataDir := true, file := .malformed }⟩
  else ⟨false, { fs with dataDir := true, file := .records results }⟩

/-- Lines 62–66: completion time in seconds.  Datetimes are modelled as
timestamps in seconds; `none` models an argument that is not a `datetime`. -/
def completionTime (start_time end_time : Option ℚ) : ℚ :=
  match start_time, end_time with
  | some s, some e => e - s
  | some _, none => 0
  | none, _ => 0

/-- The `new_result` dictionary built by `record_quiz_result`
(lines 58–81).  `now` models `datetime.now().isoformat()`. -/
def mkResultRecord (quiz_id : QuizId) (user_id : ℤ) (user_name : String)
    (score : PyNum) (correct_answers total_questions : ℤ)
    (start_time end_time : Option ℚ) (now : String) : Record :=
  { quiz_id := some (pyStr quiz_id)
    user_id := some (intRepr user_id)
    user_name := some user_name
    score := some score
    correct_answers := some correct_answers
    total_questions := some total_questions
    completion_time := some (completionTime start_time end_time)
    timestamp := some now }

/-- `record_quiz_result` (lines 37–87): load the current results, append the
new record, save.  An exception from `load_results` propagates; if the
loaded value is not a list, `results.append` raises and that propagates too;
a failing save propagates. -/
def record_quiz_result (quiz_id : QuizId) (user_id : ℤ) (user_name : String)
    (score : PyNum) (correct_answers total_questions : ℤ)
    (start_time end_time : Option ℚ) (now : String) (fs : FS) (fail : Bool) :
    WriteOutcome :=
  match load_results fs with
  | (.oserror, fs') => ⟨true, fs'⟩
  | (.ok .other, fs') => ⟨true, fs'⟩
  | (.ok (.list rs), fs') =>
    save_results
      (rs ++ [mkResultRecord quiz_id user_id user_name score correct_answers
        total_questions start_time end_time now]) fs' fail

/-! ## Reporter (`format_time`, `generate_leaderboard_message`,
lines 116–189) -/

/-- `format_time` (lines 116–120): `int(seconds // 60)` minutes and
`int(seconds % 60)` seconds. -/
def format_time (seconds : ℚ) : String :=
  let minutes : ℤ := ratTrunc (pyFloorDiv seconds 60)
  let secs : ℤ := ratTrunc (pyMod seconds 60)
  intRepr minutes ++ "m " ++ intRepr secs ++ "s"

/-- Lines 162–168: format the score depending on whether it is a float with
integral value, some other float, or an int. -/
def scoreStr (score : PyNum) : String :=
  match score with
  | .float q => if q.den = 1 then intRepr q.num else pyFormat1f q
  | .int n => intRepr n

/-- Lines 170–177: medal marker for the top three ranks (the characters are
exactly the ones in the source file). -/
def medal (i : ℕ) : String :=
  if i = 1 then "ðŸ¥‡ "
  else if i = 2 then "ðŸ¥ˆ "
  else if i = 3 then "ðŸ¥‰ "
  else ""

/-- Lines 155–184, one iteration: the message block for entry `r` at 1-based
rank `i`, with `tq` the shared denominator taken from the first entry. -/
def entryLine (i : ℕ) (tq : ℤ) (r : Record) : String :=
  medal i ++ "*" ++ natRepr i ++ ". " ++ (r.user_name.getD "Unknown") ++ "*\n   Score: "
    ++ scoreStr (r.score.getD (.int 0)) ++ "  (" ++ intRepr (r.correct_answers.getD 0)
    ++ "/" ++ intRepr tq ++ " correct)\n   Time: "
    ++ format_time (r.completion_time.getD 0) ++ "\n\n"

/-- The ranking loop (lines 155–184), starting at rank `i`. -/
def entryLines (tq : ℤ) : ℕ → List Record → String
  | _, [] => ""
  | i, r :: rs => entryLine i tq r ++ entryLines tq (i + 1) rs

/-- Lines 150–152: the shared denominator,
`leaderboard[0].get("total_questions", 0)`. -/
def headTQ (lb : List Record) : ℤ :=
  match lb with
  | [] => 0
  | r :: _ => r.total_questions.getD 0

/-- Lines 147–189: render a non-empty leaderboard view under a resolved
title (the header and medal characters are exactly those of the source). -/
def renderView (lb : List Record) (title : String) : String :=
  "ðŸ“Š *Leaderboard: " ++ title ++ "* ðŸ“Š\n\n"
    ++ entryLines (headTQ lb) 1 lb
    ++ "Use /play to start a new quiz!"

/-- Lines 142–145: the title derived from the quiz id when no explicit
title is given (Python truthiness: the id `0` or `""` falls through). -/
def titleFromQid : Option QuizId → String
  | some q => if q.truthy then "Quiz " ++ pyStr q else "All Quizzes"
  | none => "All Quizzes"

/-- Lines 139–145: title resolution; Python truthiness, so an empty string
title falls through to the quiz-id-derived title. -/
def resolveTitle (quiz_id : Option QuizId) (quiz_title : Option String) : String :=
  match quiz_title with
  | some t => if t ≠ "" then t else titleFromQid quiz_id
  | none => titleFromQid quiz_id

/-- `generate_leaderboard_message` (lines 122–189), with the loaded result
set passed explicitly. -/
def generate_leaderboard_message (results : List Record)
    (quiz_id : Option QuizId := none) (quiz_title : Option String := none) :
    String :=
  let leaderboard := get_leaderboard results quiz_id 15
  if leaderboard.isEmpty then
    "ðŸ“Š *Leaderboard*\n\nNo quiz results recorded yet!"
  else renderView leaderboard (resolveTitle quiz_id quiz_title)

/-! ## Spec-side definitions and concrete records used in witnesses -/

/-- The specification's time-format rule, stated in its own words:
`"<whole minutes>m <whole remaining seconds>s"`, with both components
truncated toward zero (not rounded). -/
def format_time_spec (s : ℚ) : String :=
  let minutes : ℤ := ratTrunc (s / 60)
  let secs : ℤ := ratTrunc (s - 60 * minutes)
  intRepr minutes ++ "m " ++ intRepr secs ++ "s"

/-- Erase the `total_questions` field; two records with equal erasures agree
on everything except possibly `total_questions`. -/
def eraseTQ (r : Record) : Record := { r with total_questions := none }

/-- A concrete stored record (used in witnesses and counterexamples). -/
def cr1 : Record :=
  { quiz_id := some "7", user_id := some "1", user_name := some "A",
    score := some (.int 1), correct_answers := some 1,
    total_questions := some 10, completion_time := some 0 }

/-- A second concrete stored record. -/
def cr2 : Record :=
  { quiz_id := some "7", user_id := some "2", user_name := some "B",
    score := some (.int 2), correct_answers := some 2,
    total_questions := some 20, completion_time := some 0 }

/-! ## Order-theoretic facts about the sort comparison -/

theorem timeLE_refl (a : Option ℚ) : timeLE a a = true := by
  rcases a with _ | a <;> simp [timeLE]

theorem timeLE_total (a b : Option ℚ) : timeLE a b || timeLE b a := by
  rcases a with _ | a <;> rcases b with _ | b <;>
    simp [timeLE] <;> exact le_total a b

theorem timeLE_trans {a b c : Option ℚ} (h₁ : timeLE a b = true) (h₂ : timeLE b c = true) :
    timeLE a c = true := by
  rcases a with _ | a <;> rcases b with _ | b <;> rcases c with _ | c <;>
    simp_all [timeLE] <;> exact le_trans h₁ h₂

theorem timeLE_antisymm {a b : Option ℚ} (h₁ : timeLE a b = true) (h₂ : timeLE b a = true) :
    a = b := by
  rcases a with _ | a <;> rcases b with _ | b <;> simp_all [timeLE]
  exact le_antisymm h₁ h₂

theorem keyLE_iff {a b : Record} :
    keyLE a b = true ↔
      scoreQ b < scoreQ a ∨ (scoreQ a = scoreQ b ∧ timeLE a.completion_time b.completion_time = true) := by
  simp [keyLE]

theorem keyLE_total (a b : Record) : keyLE a b || keyLE b a := by
  rcases lt_trichotomy (scoreQ a) (scoreQ b) with h | h | h
  · have : keyLE b a = true := keyLE_iff.mpr (Or.inl h)
    simp [this]
  · rcases Bool.or_eq_true _ _ |>.mp (timeLE_total a.completion_time b.completion_time) with ht | ht
    · have : keyLE a b = true := keyLE_iff.mpr (Or.inr ⟨h, ht⟩)
      simp [this]
    · have : keyLE b a = true := keyLE_iff.mpr (Or.inr ⟨h.symm, ht⟩)
      simp [this]
  · have : keyLE a b = true := keyLE_iff.mpr (Or.inl h)
    simp [this]

theorem keyLE_trans (a b c : Record) (h₁ : keyLE a b) (h₂ : keyLE b c) : keyLE a c = true := by
  rcases keyLE_iff.mp h₁ with h₁ | ⟨h₁, h₁t⟩ <;> rcases keyLE_iff.mp h₂ with h₂ | ⟨h₂, h₂t⟩
  · exact keyLE_iff.mpr (Or.inl (h₂.trans h₁))
  · exact keyLE_iff.mpr (Or.inl (h₂ ▸ h₁))
  · exact keyLE_iff.mpr (Or.inl (h₁ ▸ h₂))
  · exact keyLE_iff.mpr (Or.inr ⟨h₁.trans h₂, timeLE_trans h₁t h₂t⟩)

theorem keyLE_antisymm_key {a b : Record} (h₁ : keyLE a b = true) (h₂ : keyLE b a = true) :
    sortKey a = sortKey b := by
  rcases keyLE_iff.mp h₁ with h₁ | ⟨h₁, h₁t⟩ <;> rcases keyLE_iff.mp h₂ with h₂ | ⟨h₂, h₂t⟩
  · exact absurd (h₁.trans h₂) (lt_irrefl _)
  · exact absurd h₁ (h₂ ▸ lt_irrefl _)
  · exact absurd h₂ (h₁ ▸ lt_irrefl _)
  · exact Prod.ext h₁ (timeLE_antisymm h₁t h₂t)

theorem key_eq_keyLE {a b : Record} (h : sortKey a = sortKey b) : keyLE a b = true := by
  have hs : scoreQ a = scoreQ b := congrArg Prod.fst h
  have ht : a.completion_time = b.completion_time := congrArg Prod.snd h
  exact keyLE_iff.mpr (Or.inr ⟨hs, ht ▸ timeLE_refl _⟩)

/-! ## Stable sorting: generic lemmas

Python's `sorted` is a stable sort ordered by the key function; it is
modelled by `List.mergeSort`, which is stable as well.  The lemmas below
capture the two consequences the specification's ranking properties need:
a stable sort does not reorder elements that compare equal, and a stable
sort commutes with filtering. -/

section StableSort

variable {α : Type} (le : α → α → Bool)

/-- Filtering a stable sort by a predicate that only selects mutually
tied elements returns those elements in their original order. -/
theorem mergeSort_filter_eq
    (htrans : ∀ (a b c : α), le a b → le b c → le a c)
    (htotal : ∀ (a b : α), le a b || le b a) (l : List α) (p : α → Bool)
    (hp : ∀ x y, p x = true → p y = true → le x y = true) :
    (l.mergeSort le).filter p = l.filter p := by
  have hpw : (l.filter p).Pairwise (fun a b => le a b = true) :=
    List.pairwise_of_forall_mem_list fun a ha b hb =>
      hp a b (List.of_mem_filter ha) (List.of_mem_filter hb)
  have hsub : l.filter p <+ l.mergeSort le :=
    List.sublist_mergeSort htrans htotal hpw (List.filter_sublist l)
  have h1 : (l.filter p).filter p = l.filter p := by
    simp [List.filter_filter]
  have h2 : l.filter p <+ (l.mergeSort le).filter p := h1 ▸ hsub.filter p
  have h3 : (l.mergeSort le).filter p ~ l.filter p := (l.mergeSort_perm le).filter p
  exact (h2.eq_of_length h3.length_eq.symm).symm

/-- A sorted list is determined by its multiset of elements together with
the order of each class of tied elements: two sorted lists that are
permutations of each other and whose per-key filters agree are equal. -/
theorem sorted_stable_eq {κ : Type} [DecidableEq κ] (key : α → κ)
    (hkey : ∀ x y, le x y → le y x → key x = key y)
    (hkeyle : ∀ x y, key x = key y → le x y = true) :
    ∀ m₁ m₂ : List α, m₁.Pairwise (fun a b => le a b = true) →
      m₂.Pairwise (fun a b => le a b = true) → m₁ ~ m₂ →
      (∀ k, m₁.filter (fun x => decide (key x = k)) = m₂.filter (fun x => decide (key x = k))) →
      m₁ = m₂
  | [], m₂, _, _, hperm, _ => hperm.nil_eq
  | a :: t₁, [], _, _, hperm, _ => absurd hperm.symm.nil_eq (by simp)
  | a :: t₁, b :: t₂, hp₁, hp₂, hperm, hfil => by
    have hkab : key a = key b := by
      have hamem : a ∈ b :: t₂ := hperm.subset (List.mem_cons_self a t₁)
      have hbmem : b ∈ a :: t₁ := hperm.symm.subset (List.mem_cons_self b t₂)
      rcases List.mem_cons.mp hamem with h | h
      · exact h ▸ rfl
      · rcases List.mem_cons.mp hbmem with h' | h'
        · exact h' ▸ rfl
        · exact (hkey a b (List.rel_of_pairwise_cons hp₁ h') (List.rel_of_pairwise_cons hp₂ h))
    have hab : a = b := by
      have := hfil (key a)
      rw [List.filter_cons_of_pos (by simp), List.filter_cons_of_pos (by simp [hkab])] at this
      exact (List.cons.injEq _ _ _ _ ▸ this).1
    subst hab
    have htail : t₁ = t₂ := by
      apply sorted_stable_eq key hkey hkeyle t₁ t₂ hp₁.of_cons hp₂.of_cons
        (hperm.cons_inv)
      intro k
      have := hfil k
      by_cases hk : key a = k
      · rw [List.filter_cons_of_pos (by simp [hk]), List.filter_cons_of_pos (by simp [hk])] at this
        exact (List.cons.injEq _ _ _ _ ▸ this).2
      · rwa [List.filter_cons_of_neg (by simp [hk]), List.filter_cons_of_neg (by simp [hk])] at this
    rw [htail]

/-- A stable sort commutes with filtering. -/
theorem mergeSort_filter_comm {κ : Type} [DecidableEq κ] (key : α → κ)
    (htrans : ∀ (a b c : α), le a b → le b c → le a c)
    (htotal : ∀ (a b : α), le a b || le b a)
    (hkey : ∀ x y, le x y → le y x → key x = key y)
    (hkeyle : ∀ x y, key x = key y → le x y = true)
    (l : List α) (p : α → Bool) :
    (l.filter p).mergeSort le = (l.mergeSort le).filter p := by
  apply sorted_stable_eq le key hkey hkeyle
  · exact List.sorted_mergeSort htrans htotal _
  · exact List.Pairwise.sublist (List.filter_sublist _) (List.sorted_mergeSort htrans htotal l)
  · exact ((l.filter p).mergeSort_perm le).trans ((l.mergeSort_perm le).filter p).symm
  · intro k
    rw [mergeSort_filter_eq le htrans htotal (l.filter p) _
        (fun x y hx hy => by
          simp only [decide_eq_true_iff] at hx hy
          exact hkeyle x y (hx ▸ hy ▸ rfl))]
    rw [List.filter_filter, List.filter_filter]
    exact (mergeSort_filter_eq le htrans htotal l _
      (fun x y hx hy => by
        simp only [Bool.and_eq_true, decide_eq_true_iff] at hx hy
        exact hkeyle x y (hx.1 ▸ hy.1 ▸ rfl))).symm

end StableSort

/-! ## Decimal rendering facts -/

theorem digitChar_isDigit : ∀ d : ℕ, (digitChar d).isDigit = true
  | 0 => rfl
  | 1 => rfl
  | 2 => rfl
  | 3 => rfl
  | 4 => rfl
  | 5 => rfl
  | 6 => rfl
  | 7 => rfl
  | 8 => rfl
  | _ + 9 => rfl

theorem natReprAux_isDigit : ∀ fuel n : ℕ, ∀ c ∈ (natReprAux fuel n).data, c.isDigit = true := by
  intro fuel
  induction fuel with
  | zero =>
    intro n c hc
    simp [natReprAux] at hc
  | succ f ih =>
    intro n c hc
    rw [natReprAux] at hc
    split at hc
    · have h1 : (String.singleton (digitChar n)).data = [digitChar n] := rfl
      rw [h1, List.mem_singleton] at hc
      exact hc ▸ digitChar_isDigit n
    · rw [String.data_append] at hc
      rcases List.mem_append.mp hc with h | h
      · exact ih _ c h
      · have h1 : (String.singleton (digitChar (n % 10))).data = [digitChar (n % 10)] := rfl
        rw [h1, List.mem_singleton] at h
        exact h ▸ digitChar_isDigit (n % 10)

theorem natRepr_isDigit (n : ℕ) : ∀ c ∈ (natRepr n).data, c.isDigit = true :=
  natReprAux_isDigit (n + 1) n

theorem isDigit_ne_dot {c : Char} (h : c.isDigit = true) : c ≠ '.' := by
  intro hc
  subst hc
  exact absurd h (by decide)

theorem intRepr_chars (n : ℤ) : ∀ c ∈ (intRepr n).data, c.isDigit = true ∨ c = '-' := by
  intro c hc
  unfold intRepr at hc
  split at hc
  · rw [String.data_append] at hc
    rcases List.mem_append.mp hc with h | h
    · have h1 : ("-" : String).data = ['-'] := rfl
      rw [h1, List.mem_singleton] at h
      exact Or.inr h
    · exact Or.inl (natRepr_isDigit _ c h)
  · exact Or.inl (natRepr_isDigit _ c hc)

theorem intRepr_ne_dot (n : ℤ) : ∀ c ∈ (intRepr n).data, c ≠ '.' := by
  intro c hc
  rcases intRepr_chars n c hc with h | h
  · exact isDigit_ne_dot h
  · subst h
    decide

theorem natRepr_of_lt_ten {n : ℕ} (h : n < 10) :
    natRepr n = String.singleton (digitChar n) := by
  rw [natRepr, natReprAux, if_pos h]

theorem ratTrunc_intCast (n : ℤ) : ratTrunc (n : ℚ) = n := by
  unfold ratTrunc
  split
  · exact Int.floor_intCast n
  · rw [show -(n : ℚ) = ((-n : ℤ) : ℚ) by push_cast; ring, Int.floor_intCast]
    ring

theorem ratTrunc_of_nonneg {q : ℚ} (h : 0 ≤ q) : ratTrunc q = ⌊q⌋ := if_pos h

/-! ## Length of a leaderboard view -/

/-- The exact length of a leaderboard view, for any integer limit: Python's
slice `[:limit]` keeps the first `limit` entries for a non-negative limit,
and drops the last `|limit|` entries for a negative one. -/
theorem length_get_leaderboard (results : List Record) (quiz_id : Option QuizId)
    (limit : ℤ) :
    (get_leaderboard results quiz_id limit).length =
      if 0 ≤ limit then min limit.toNat (filterByQuiz results quiz_id).length
      else (filterByQuiz results quiz_id).length - (-limit).toNat := by
  unfold get_leaderboard pySlice
  split
  · simp
  · simp only [List.length_take, List.length_mergeSort]
    exact Nat.min_eq_left (Nat.sub_le _ _)

/-! ## Claim C2 (truncation) -/

/-- C2, corrected.  `get_leaderboard` keeps the first `limit` entries only
for a non-negative limit: the view then has length
`min limit (count matching the filter)`, and `limit = 0` yields an empty
view.  A negative limit does not yield an empty view: Python's slice
`[:limit]` then drops the last `|limit|` entries, leaving
`count - |limit|` of them. -/
theorem get_leaderboard_truncation (results : List Record)
    (quiz_id : Option QuizId) (limit : ℤ) :
    (get_leaderboard results quiz_id limit).length =
      if 0 ≤ limit then min limit.toNat (filterByQuiz results quiz_id).length
      else (filterByQuiz results quiz_id).length - (-limit).toNat :=
  length_get_leaderboard results quiz_id limit

/-- C2, counterexample to the claim as stated: with two stored records and
`limit = -1 ≤ 0` the view is not empty (it keeps the first of the two). -/
theorem get_leaderboard_neg_limit_nonempty :
    get_leaderboard [cr1, cr2] none (-1) ≠ [] := by
  intro h
  have hlen := congrArg List.length h
  rw [length_get_leaderboard] at hlen
  simp [filterByQuiz] at hlen

/-! ## Claim C4 (load error handling) -/

/-- C4, amended.  `load_results` returns the persisted collection; an absent
file or undecodable contents yield the empty collection with no error
surfaced.  But decodable JSON of the wrong shape is returned as-is, not
normalized to the empty collection, and a read failure other than
file-not-found (e.g. permissions) propagates instead of yielding empty. -/
theorem load_results_error_handling (fs : FS) :
    ((fs.file = .absent ∨ fs.file = .malformed) → (load_results fs).1 = .ok (.list []))
    ∧ (∀ rs, fs.file = .records rs → (load_results fs).1 = .ok (.list rs))
    ∧ (fs.file = .jsonOther → (load_results fs).1 = .ok .other)
    ∧ (fs.file = .unreadable → (load_results fs).1 = .oserror) := by
  rcases fs with ⟨d, file⟩
  cases file <;> simp [load_results]

/-- C4, witness for the amended claim at a concrete state. -/
theorem load_results_error_handling_witness :
    (load_results ⟨true, .malformed⟩).1 = .ok (.list []) :=
  (load_results_error_handling ⟨true, .malformed⟩).1 (Or.inr rfl)

/-- C4, counterexample to the claim as stated: with the backing file holding
structurally invalid data (valid JSON that is not a record list),
`load_results` does not return the empty collection — it returns the decoded
value unchanged. -/
theorem load_results_wrong_shape_not_empty :
    (load_results ⟨true, .jsonOther⟩).1 ≠ .ok (.list []) := by decide

/-! ## Claim C5 (append atomicity / write failure) -/

/-- C5, amended.  A write failure inside `record_quiz_result` propagates to
the caller (nothing catches it), and a successful call appends exactly the
new record.  But the rewrite is not atomic: the file is opened in truncating
write mode, so a mid-way failure leaves a partial, undecodable document in
place of the prior content. -/
theorem record_quiz_result_write_failure (rs : List Record) (fs : FS)
    (qid : QuizId) (uid : ℤ) (uname : String) (score : PyNum)
    (ca tq : ℤ) (st et : Option ℚ) (now : String)
    (h : fs.file = .records rs) :
    record_quiz_result qid uid uname score ca tq st et now fs false
        = ⟨false, ⟨true, .records (rs ++ [mkResultRecord qid uid uname score ca tq st et now])⟩⟩
    ∧ (record_quiz_result qid uid uname score ca tq st et now fs true).raised = true
    ∧ (record_quiz_result qid uid uname score ca tq st et now fs true).fs.file = .malformed := by
  rcases fs with ⟨d, file⟩
  cases h
  simp [record_quiz_result, load_results, save_results]

/-- C5, witness for the amended claim at a concrete state. -/
theorem record_quiz_result_write_failure_witness :
    (record_quiz_result (.int 1) 1 "u" (.int 0) 0 0 none none "t"
        ⟨true, .records [cr1]⟩ true).raised = true :=
  (record_quiz_result_write_failure [cr1] ⟨true, .records [cr1]⟩ (.int 1) 1 "u"
    (.int 0) 0 0 none none "t" rfl).2.1

/-- C5, counterexample to the claim as stated: after a mid-way write failure
the persisted state is not unchanged — the prior content is overwritten by a
partial document. -/
theorem record_quiz_result_not_atomic :
    (record_quiz_result (.int 1) 1 "u" (.int 0) 0 0 none none "t"
        ⟨true, .records [cr1]⟩ true).fs ≠ (⟨true, .records [cr1]⟩ : FS) := by decide

/-! ## Claim C6 (completion time) -/

/-- C6, amended.  The stored record's `completion_time` equals
`end_time - start_time` in seconds when both timestamps are valid datetimes
— which is negative when `end_time` precedes `start_time` — and `0` when the
pair is missing or invalid; it is non-negative whenever the end does not
precede the start. -/
theorem record_completion_time (qid : QuizId) (uid : ℤ) (uname : String)
    (score : PyNum) (ca tq : ℤ) (st et : Option ℚ) (now : String) :
    (mkResultRecord qid uid uname score ca tq st et now).completion_time
        = some (completionTime st et)
    ∧ (∀ s e : ℚ, st = some s → et = some e → completionTime st et = e - s)
    ∧ ((st = none ∨ et = none) → completionTime st et = 0)
    ∧ (∀ s e : ℚ, s ≤ e → 0 ≤ completionTime (some s) (some e)) := by
  refine ⟨rfl, ?_, ?_, ?_⟩
  · rintro s e rfl rfl
    rfl
  · rintro (rfl | rfl)
    · rfl
    · cases st <;> rfl
  · intro s e h
    simpa [completionTime] using h

/-- C6, witness for the amended claim at concrete timestamps. -/
theorem record_completion_time_witness :
    completionTime (some 3) (some 5) = 5 - 3 :=
  (record_completion_time (.int 1) 1 "u" (.int 0) 0 0 (some 3) (some 5) "t").2.1
    3 5 rfl rfl

/-- C6, counterexample to the claim as stated: a submission whose end
timestamp precedes its start timestamp stores a negative `completion_time`
(here `-5` seconds), violating `completion_time ≥ 0`. -/
theorem record_completion_time_negative :
    (mkResultRecord (.int 1) 1 "u" (.int 0) 0 0 (some 10) (some 5) "t").completion_time
        = some (-5)
    ∧ ¬ (0 ≤ (-5 : ℚ)) := by
  constructor
  · simp only [mkResultRecord, completionTime]
    norm_num
  · norm_num

/-! ## Claim C10 (load creates the data directory) -/

/-- C10, confirmed.  When the results file is absent, `load_results` creates
the backing data directory before returning the empty list, touching no
other filesystem state (the file component is unchanged), and the creation
is idempotent: a second call returns the same state. -/
theorem load_results_creates_data_dir (fs : FS) (h : fs.file = .absent) :
    load_results fs = (.ok (.list []), { fs with dataDir := true })
    ∧ load_results { fs with dataDir := true }
        = (.ok (.list []), { fs with dataDir := true }) := by
  rcases fs with ⟨d, file⟩
  cases h
  exact ⟨rfl, rfl⟩

/-- C10, witness at a concrete state with no data directory. -/
theorem load_results_creates_data_dir_witness :
    load_results ⟨false, .absent⟩ = (.ok (.list []), (⟨true, .absent⟩ : FS)) :=
  (load_results_creates_data_dir ⟨false, .absent⟩ rfl).1

/-! ## Claim C8 (time formatting) -/

/-- Evaluation lemma for `format_time` from the two integer components. -/
theorem format_time_eval (s : ℚ) (m r : ℤ) (hm : ⌊s / 60⌋ = m)
    (hr : ratTrunc (s - 60 * m) = r) :
    format_time s = intRepr m ++ "m " ++ intRepr r ++ "s" := by
  simp only [format_time, pyFloorDiv, pyMod, hm, ratTrunc_intCast]
  rw [hr]

/-- C8, confirmed.  For non-negative seconds, `format_time` renders
`"<whole minutes>m <whole remaining seconds>s"` with both components
truncated toward zero, exactly as the specification's formula states; in
particular `0 → "0m 0s"`, `65 → "1m 5s"` and `3599.9 → "59m 59s"`. -/
theorem format_time_truncation :
    (∀ s : ℚ, 0 ≤ s → format_time s = format_time_spec s)
    ∧ format_time 0 = "0m 0s" ∧ format_time 65 = "1m 5s"
    ∧ format_time (35999 / 10) = "59m 59s" := by
  refine ⟨?_, ?_, ?_, ?_⟩
  · intro s hs
    simp only [format_time, format_time_spec, pyFloorDiv, pyMod, ratTrunc_intCast,
      ratTrunc_of_nonneg (by positivity : (0 : ℚ) ≤ s / 60)]
  · rw [format_time_eval 0 0 0 (by norm_num) (by norm_num [ratTrunc])]
    decide
  · rw [format_time_eval 65 1 5 (by norm_num) (by norm_num [ratTrunc])]
    decide
  · rw [format_time_eval (35999 / 10) 59 59 (by norm_num) (by norm_num [ratTrunc])]
    decide

/-- C8, witness: the truncation rule applied at 65 seconds. -/
theorem format_time_truncation_witness : format_time 65 = format_time_spec 65 :=
  format_time_truncation.1 65 (by norm_num)

/-! ## Claim C9 (score formatting) -/

/-- C9, confirmed.  An integral-valued score renders with no decimal point;
a fractional score renders with exactly one digit after the single decimal
point; the rendering agrees between `int` storage and integral `float`
storage; and `10.0 → "10"`, `10.5 → "10.5"`, `-2 → "-2"`. -/
theorem score_formatting :
    (∀ p : PyNum, (PyNum.val p).den = 1 → ∀ c ∈ (scoreStr p).data, c ≠ '.')
    ∧ (∀ q : ℚ, q.den ≠ 1 → ∃ pre d, scoreStr (.float q) = pre ++ "." ++ String.singleton d
        ∧ d.isDigit = true ∧ ∀ c ∈ pre.data, c ≠ '.')
    ∧ (∀ n : ℤ, scoreStr (.int n) = scoreStr (.float (n : ℚ)))
    ∧ scoreStr (.float 10) = "10" ∧ scoreStr (.float (21 / 2)) = "10.5"
    ∧ scoreStr (.int (-2)) = "-2" := by
  refine ⟨?_, ?_, ?_, ?_, ?_, ?_⟩
  · intro p hp c hc
    cases p with
    | int n => exact intRepr_ne_dot n c hc
    | float q =>
      have hq : q.den = 1 := hp
      simp only [scoreStr, if_pos hq] at hc
      exact intRepr_ne_dot _ c hc
  · intro q hq
    refine ⟨(if q < 0 then "-" else "") ++ natRepr ((rhe (q * 10)).natAbs / 10),
      digitChar ((rhe (q * 10)).natAbs % 10), ?_, digitChar_isDigit _, ?_⟩
    · simp only [scoreStr, if_neg hq, pyFormat1f]
      rw [natRepr_of_lt_ten (Nat.mod_lt _ (by norm_num))]
    · intro c hc
      rw [String.data_append] at hc
      rcases List.mem_append.mp hc with h | h
      · split at h
        · have h1 : ("-" : String).data = ['-'] := rfl
          rw [h1, List.mem_singleton] at h
          subst h
          decide
        · have h1 : ("" : String).data = [] := rfl
          rw [h1] at h
          cases h
      · exact isDigit_ne_dot (natRepr_isDigit _ c h)
  · intro n
    simp [scoreStr, Rat.den_intCast, Rat.num_intCast]
  · simp only [scoreStr]
    rw [if_pos (by norm_num), show ((10 : ℚ)).num = 10 by norm_num]
    decide
  · simp only [scoreStr]
    rw [if_neg (by norm_num), pyFormat1f,
      show rhe ((21 / 2 : ℚ) * 10) = 105 by norm_num [rhe, Int.fract],
      if_neg (by norm_num : ¬ ((21 / 2 : ℚ) < 0))]
    decide
  · decide

/-- C9, witness: the fractional-score rule applied at 10.5. -/
theorem score_formatting_witness :
    ∃ pre d, scoreStr (.float (21 / 2)) = pre ++ "." ++ String.singleton d
      ∧ d.isDigit = true ∧ ∀ c ∈ pre.data, c ≠ '.' :=
  score_formatting.2.1 (21 / 2) (by norm_num)

/-! ## Claim C7 (shared denominator from the first entry) -/

theorem entryLine_congr {r r' : Record} (h : eraseTQ r = eraseTQ r') (i : ℕ) (tq : ℤ) :
    entryLine i tq r = entryLine i tq r' := by
  obtain ⟨q, u, un, sc, ca, tqf, ct, ts⟩ := r
  obtain ⟨q', u', un', sc', ca', tqf', ct', ts'⟩ := r'
  simp only [eraseTQ, Record.mk.injEq, and_true, true_and] at h
  obtain ⟨h1, h2, h3, h4, h5, h6, h7⟩ := h
  simp only [entryLine, h1, h2, h3, h4, h5, h6, h7]

theorem entryLines_congr : ∀ lb lb' : List Record, lb.map eraseTQ = lb'.map eraseTQ →
    ∀ (tq : ℤ) (i : ℕ), entryLines tq i lb = entryLines tq i lb'
  | [], [], _, _, _ => rfl
  | [], _ :: _, h, _, _ => by simp at h
  | _ :: _, [], h, _, _ => by simp at h
  | r :: t, r' :: t', h, tq, i => by
    simp only [List.map_cons, List.cons.injEq] at h
    rw [entryLines, entryLines, entryLine_congr h.1, entryLines_congr t t' h.2 tq (i + 1)]

theorem headTQ_congr {lb lb' : List Record}
    (h : lb.head?.map Record.total_questions = lb'.head?.map Record.total_questions) :
    headTQ lb = headTQ lb' := by
  cases lb with
  | nil =>
    cases lb' with
    | nil => rfl
    | cons r' t' => simp at h
  | cons r t =>
    cases lb' with
    | nil => simp at h
    | cons r' t' =>
      simp only [List.head?_cons, Option.map_some', Option.some.injEq] at h
      simp [headTQ, h]

/-- C7, confirmed.  The rendered message depends on `total_questions` only
through the first entry of the view: two views that agree entrywise on every
field except `total_questions`, and whose first entries also agree on
`total_questions`, render identically — and changing the first entry's
`total_questions` does change the message, as the concrete pair shows. -/
theorem renderView_uses_first_total_questions :
    (∀ (lb lb' : List Record) (title : String),
        lb.map eraseTQ = lb'.map eraseTQ →
        lb.head?.map Record.total_questions = lb'.head?.map Record.total_questions →
        renderView lb title = renderView lb' title)
    ∧ renderView [cr1, cr2] "T"
        ≠ renderView [{ cr1 with total_questions := some 99 }, cr2] "T" := by
  constructor
  · intro lb lb' title hmap hhead
    simp only [renderView]
    rw [headTQ_congr hhead, entryLines_congr lb lb' hmap]
  · have hft : format_time 0 = "0m 0s" := by
      rw [format_time_eval 0 0 0 (by norm_num) (by norm_num [ratTrunc])]
      decide
    intro h
    dsimp only [renderView, entryLines, entryLine, cr1, cr2, headTQ, medal,
      Option.getD, scoreStr] at h
    rw [hft] at h
    exact absurd h (by decide)

/-- C7, witness: replacing the `total_questions` of a non-first entry leaves
the rendered message unchanged. -/
theorem renderView_uses_first_total_questions_witness :
    renderView [cr1, cr2] "T" = renderView [cr1, { cr2 with total_questions := some 99 }] "T" :=
  renderView_uses_first_total_questions.1 _ _ "T" rfl rfl

/-! ## Claim C1 (ranking order and stability) -/

/-- C1, confirmed.  In every leaderboard view, each adjacent pair `(a, b)`
satisfies `a.score > b.score`, or `a.score = b.score` and `a`'s completion
time is at most `b`'s — where a missing completion time counts as infinitely
slow (`timeLE`), and a missing score counts as `0` (`scoreQ`), as the code's
defaults prescribe.  Moreover the sort is stable: the entries of the view
with any fixed sort key form a prefix of the filtered result set's entries
with that key, in their original insertion order. -/
theorem get_leaderboard_ranking_order (results : List Record)
    (quiz_id : Option QuizId) (limit : ℤ) :
    List.Chain' (fun a b => scoreQ b < scoreQ a ∨
        (scoreQ a = scoreQ b ∧ timeLE a.completion_time b.completion_time = true))
      (get_leaderboard results quiz_id limit)
    ∧ ∀ k : ℚ × Option ℚ,
        (get_leaderboard results quiz_id limit).filter (fun r => decide (sortKey r = k))
          <+: (filterByQuiz results quiz_id).filter (fun r => decide (sortKey r = k)) := by
  obtain ⟨m, hm⟩ : ∃ m, get_leaderboard results quiz_id limit
      = ((filterByQuiz results quiz_id).mergeSort keyLE).take m := by
    unfold get_leaderboard pySlice
    split
    · exact ⟨_, rfl⟩
    · exact ⟨_, rfl⟩
  constructor
  · rw [hm]
    have hs : ((filterByQuiz results quiz_id).mergeSort keyLE).Pairwise
        (fun a b => keyLE a b = true) :=
      List.sorted_mergeSort keyLE_trans keyLE_total _
    exact ((List.Pairwise.sublist (List.take_sublist m _) hs).imp
      fun h => keyLE_iff.mp h).chain'
  · intro k
    rw [hm]
    have hpref : (((filterByQuiz results quiz_id).mergeSort keyLE).take m)
        <+: ((filterByQuiz results quiz_id).mergeSort keyLE) :=
      ⟨_, List.take_append_drop m _⟩
    have hf := hpref.filter (fun r => decide (sortKey r = k))
    rwa [mergeSort_filter_eq keyLE keyLE_trans keyLE_total _ _
      (fun x y hx hy => by
        simp only [decide_eq_true_iff] at hx hy
        exact key_eq_keyLE (hx.trans hy.symm))] at hf

/-! ## Claim C3 (filter correctness) -/

/-- C3, confirmed.  With the limit large enough to return everything, the
per-quiz leaderboard contains only records of that quiz (after string
normalization of the identifier), and equals the all-quizzes leaderboard
restricted to that quiz, in the same relative order. -/
theorem get_leaderboard_filter_correctness (results : List Record) (X : QuizId) :
    (∀ r ∈ get_leaderboard results (some X) (results.length : ℤ),
        r.quiz_id = some (pyStr X))
    ∧ get_leaderboard results (some X) (results.length : ℤ)
        = (get_leaderboard results none (results.length : ℤ)).filter
            (fun r => decide (r.quiz_id = some (pyStr X))) := by
  constructor
  · intro r hr
    unfold get_leaderboard pySlice at hr
    rw [if_pos (Int.natCast_nonneg _)] at hr
    have hr1 : r ∈ (filterByQuiz results (some X)).mergeSort keyLE :=
      List.mem_of_mem_take hr
    rw [List.mem_mergeSort] at hr1
    simp only [filterByQuiz] at hr1
    have hpr := List.of_mem_filter hr1
    exact of_decide_eq_true hpr
  · have h1 : pySlice ((filterByQuiz results (some X)).mergeSort keyLE) (results.length : ℤ)
        = (filterByQuiz results (some X)).mergeSort keyLE := by
      unfold pySlice
      rw [if_pos (Int.natCast_nonneg _), Int.toNat_natCast]
      apply List.take_of_length_le
      rw [List.length_mergeSort]
      exact List.length_filter_le _ _
    have h2 : pySlice ((filterByQuiz results none).mergeSort keyLE) (results.length : ℤ)
        = (filterByQuiz results none).mergeSort keyLE := by
      unfold pySlice
      rw [if_pos (Int.natCast_nonneg _), Int.toNat_natCast]
      apply List.take_of_length_le
      rw [List.length_mergeSort]
      exact Nat.le_refl _
    unfold get_leaderboard
    rw [h1, h2]
    exact mergeSort_filter_comm keyLE sortKey keyLE_trans keyLE_total
      (fun x y hx hy => keyLE_antisymm_key hx hy)
      (fun x y hxy => key_eq_keyLE hxy) results _

/-- C3, witness: the containment property applied at a concrete one-record
store. -/
theorem get_leaderboard_filter_correctness_witness :
    cr1.quiz_id = some (pyStr (.int 7)) := by
  apply (get_leaderboard_filter_correctness [cr1] (.int 7)).1 cr1
  have hfil : filterByQuiz [cr1] (some (.int 7)) = [cr1] := by
    simp only [filterByQuiz]
    rw [List.filter_cons_of_pos (by decide), List.filter_nil]
  have hglb : get_leaderboard [cr1] (some (.int 7)) (([cr1] : List Record).length : ℤ)
      = [cr1] := by
    unfold get_leaderboard pySlice
    rw [hfil, List.mergeSort_singleton]
    rfl
  rw [hglb]
  exact List.mem_singleton_self cr1

end Leaderboard
